import Mathlib

/-!
# sourced `web` and `prune` commands

A shallow embedding of `cmd/sourced/cmd/web.go` and `cmd/sourced/cmd/prune.go`.

Go strings are modelled as lists of code points (`GoString`).  The external
collaborators (the compose runner, the HTTP client, the browser launcher and the
formatting of a `time.Duration`) are fields of a `World`: the n-th call of a
collaborator is answered by the n-th entry of the corresponding oracle.  The two
flows of `OpenUI` (the caller and the goroutine) each record the calls they make
in a list of `Event`s; the `select` between the completion channel and the timer
is resolved by a Boolean argument of `OpenUI`, the choice of the scheduler.
-/

namespace Sourced

/-- A Go string, as its sequence of code points. -/
abbrev GoString := List Char

/-! ## The parts of the Go standard library that `web.go` uses -/

/-- The predicate `unicode.IsSpace`: the Latin-1 spaces and the `White_Space` table. -/
def isSpace (c : Char) : Bool :=
  let n := c.toNat
  (0x09 ≤ n && n ≤ 0x0d) || n == 0x20 || n == 0x85 || n == 0xa0 || n == 0x1680 ||
  (0x2000 ≤ n && n ≤ 0x200a) || n == 0x2028 || n == 0x2029 || n == 0x202f ||
  n == 0x205f || n == 0x3000

/-- The function `strings.TrimSpace`: drop leading and trailing white space. -/
def TrimSpace (s : GoString) : GoString :=
  ((s.dropWhile isSpace).reverse.dropWhile isSpace).reverse

/-- The function `strings.Contains`. -/
def Contains : GoString → GoString → Bool
  | [], substr => substr.isPrefixOf []
  | c :: cs, substr => substr.isPrefixOf (c :: cs) || Contains cs substr

/-- The call `strings.Replace(s, old, new, 1)` for a non-empty `old`: the first
occurrence of `old` in `s`, if there is one, is replaced by `new`. -/
def Replace1 : GoString → GoString → GoString → GoString
  | [], _, _ => []
  | c :: cs, old, new =>
    if old.isPrefixOf (c :: cs) then new ++ (c :: cs).drop old.length
    else c :: Replace1 cs old new

/-- One second as a `time.Duration` (nanoseconds). -/
def Second : Int := 1000000000

/-! ## Errors -/

/-- Modelled from the spec: the error kinds of the packages `workdir` and `dir`
(malformed, missing and invalid working directory), whose declarations are not
part of these two files; `other` stands for every other kind. -/
inductive Kind
  | ErrMalformed
  | ErrNotExist
  | ErrNotValid
  | other
  deriving DecidableEq, Repr

/-- A Go `error` value that is not nil. -/
inductive GoError
  /-- an error handed out by a collaborator, with its kind and message -/
  | ext (kind : Kind) (msg : GoString)
  /-- the value of `fmt.Errorf` -/
  | errorf (msg : GoString)
  /-- the value of `errors.Wrap(cause, msg)` -/
  | wrap (cause : GoError) (msg : GoString)
  deriving DecidableEq, Repr

/-- The method `Error()`. -/
def GoError.Error : GoError → GoString
  | .ext _ msg => msg
  | .errorf msg => msg
  | .wrap cause msg => msg ++ ": ".toList ++ cause.Error

/-- The method `Kind.Is(err)`: only an error of that kind answers yes, nil does not. -/
def Kind.Is (k : Kind) : Option GoError → Bool
  | some (.ext k' _) => k == k'
  | _ => false

/-! ## Collaborators and observable events -/

/-- What one call of `compose.RunWithIO` does: the text it writes to the
standard-output writer it was given, and the error it returns (`none` is nil). -/
structure RunResult where
  out : GoString
  err : Option GoError

/-- The collaborators of the two commands.  Calls of `compose.RunWithIO` and of
`http.Client.Get` are numbered from 0 in the order in which a run makes them. -/
structure World where
  /-- the n-th call of `compose.RunWithIO`, with its arguments -/
  RunWithIO : Nat → List GoString → RunResult
  /-- the n-th call of `client.Get(url)`: true when it returns no error -/
  Get : Nat → GoString → Bool
  /-- the call `browser.OpenURL(url)` -/
  OpenURL : GoString → Option GoError
  /-- the text that the verb `%v` prints for a `time.Duration` -/
  formatDuration : Int → GoString

/-- A call that a flow of `OpenUI` makes to the outside. -/
inductive Event
  /-- the call `compose.RunWithIO(ctx, os.Stdin, stdout, nil, args...)` -/
  | run (args : List GoString)
  /-- the call `time.Sleep(d)` -/
  | sleep (d : Int)
  /-- the call `client.Get(url)` -/
  | get (url : GoString)
  /-- the call `browser.OpenURL(url)` -/
  | openURL (url : GoString)
  /-- the call `fmt.Println(text)` -/
  | println (text : GoString)
  /-- the call `startSpinner(msg)` -/
  | startSpinner (msg : GoString)
  /-- the deferred `stopSpinner()` -/
  | stopSpinner
  /-- the `select` statement took the completion channel (true) or the timer (false) -/
  | select (completion : Bool)
  deriving DecidableEq, Repr

/-! ## web.go -/

/-- The service name used in docker-compose.yml for the srcd/sourced-ui image. -/
def containerName : GoString := "sourced-ui".toList

/-- The arguments of the readiness probe: `"port", containerName, "8088"`. -/
def portArgs : List GoString := ["port".toList, containerName, "8088".toList]

/-- The URL that `openUI` builds from the address. -/
def openUI.url (address : GoString) : GoString :=
  "http://".toList ++ Replace1 address "0.0.0.0".toList "127.0.0.1".toList

/-- The `for` loop of `openUI`: request `url` until a request succeeds, sleeping one
second after each failure.  `k` numbers the next request; the result is the
events of the loop, or `none` when no request succeeds within `fuel` requests. -/
def openUI.loop (w : World) (url : GoString) : Nat → Nat → Option (List Event)
  | 0, _ => none
  | fuel + 1, k =>
    if w.Get k url then some [Event.get url]
    else (openUI.loop w url fuel (k + 1)).map
      (fun tr => Event.get url :: Event.sleep (1 * Second) :: tr)

/-- The function `openUI`: its returned error and its events. -/
def openUI (w : World) (fuel : Nat) (address : GoString) :
    Option (Option GoError × List Event) :=
  let url := openUI.url address
  match openUI.loop w url fuel 0 with
  | none => none
  | some tr =>
    match w.OpenURL url with
    | some err =>
      some (some (GoError.wrap err "could not open the browser".toList),
        tr ++ [Event.openURL url])
    | none => some (none, tr ++ [Event.openURL url])

/-- The function `checkFailFast`: the pair it returns and the buffer afterwards.
It makes call number 0 of `compose.RunWithIO`. -/
def checkFailFast (w : World) (stdout : GoString) : (Bool × Option GoError) × GoString :=
  let r := w.RunWithIO 0 portArgs
  let stdout := stdout ++ r.out
  let err := r.err
  if Kind.ErrMalformed.Is err || Kind.ErrNotExist.Is err || Kind.ErrNotValid.Is err then
    ((true, err), stdout)
  else if err ≠ none then ((false, err), stdout)
  else ((false, none), stdout)

/-- The function `waitForContainer`: probe until a probe returns no error, sleeping
one second after each failure.  `n` numbers the next call of `compose.RunWithIO`;
the result is the buffer afterwards and the events, or `none` when no probe
succeeds within `fuel` probes. -/
def waitForContainer (w : World) : Nat → Nat → GoString → Option (GoString × List Event)
  | 0, _, _ => none
  | fuel + 1, n, stdout =>
    let r := w.RunWithIO n portArgs
    let stdout := stdout ++ r.out
    if r.err = none then some (stdout, [Event.run portArgs])
    else (waitForContainer w fuel (n + 1) stdout).map
      (fun p => (p.1, Event.run portArgs :: Event.sleep (1 * Second) :: p.2))

/-- A finished run of the goroutine of `OpenUI`. -/
structure TaskRun where
  /-- the value of the local variable `address` -/
  address : GoString
  /-- the value sent on the channel `ch` (`none` is nil) -/
  sent : Option GoError
  /-- the events of the goroutine, in order -/
  trace : List Event
  deriving DecidableEq, Repr

/-- The goroutine of `OpenUI`, started with the buffer that `checkFailFast` left.
The result is `none` when one of its loops does not end within `fuel` rounds. -/
def OpenUI.task (w : World) (fuel : Nat) (containerReady : Bool) (stdout : GoString) :
    Option TaskRun :=
  let waited : Option (GoString × List Event) :=
    if !containerReady then waitForContainer w fuel 1 stdout else some (stdout, [])
  match waited with
  | none => none
  | some (stdout, tr) =>
    let address := TrimSpace stdout
    if address = [] then
      some { address := address,
             sent := some (GoError.errorf
               ("could not find the public port of ".toList ++ containerName)),
             trace := tr }
    else
      match openUI w fuel address with
      | none => none
      | some (err, tr') => some { address := address, sent := err, trace := tr ++ tr' }

/-- The text of the banner that `OpenUI` prints. -/
def banner : GoString :=
  "\nOnce source\x7bd\x7d is fully initialized, the UI will be available, by default at:\n  http://127.0.0.1:8088\n  user:admin\n  pass:admin\n\t".toList

/-- A run of `OpenUI` that has returned. -/
structure Outcome where
  /-- the returned error (`none` is nil) -/
  ret : Option GoError
  /-- the events of the calling flow, in order -/
  main : List Event
  /-- whether the goroutine was started -/
  spawned : Bool
  /-- the finished run of the goroutine, when the run took the completion channel -/
  task : Option TaskRun
  deriving DecidableEq, Repr

/-- The function `OpenUI`.  `completion` is the branch that the `select` takes: the
completion channel (true) or the timer (false).  The completion channel can be
taken only when the goroutine reaches its send; the result is `none` when the
goroutine does not get there within `fuel` rounds of its loops. -/
def OpenUI (w : World) (fuel : Nat) (completion : Bool) (timeout : Int) : Option Outcome :=
  let ((failFast, err), stdout) := checkFailFast w []
  if failFast then
    some { ret := err, main := [Event.run portArgs], spawned := false, task := none }
  else
    let containerReady : Bool := err = none
    let task := OpenUI.task w fuel containerReady stdout
    let pre := [Event.run portArgs, Event.println banner]
    let spin : Bool := timeout > 5 * Second
    let start := if spin then [Event.startSpinner "Initializing source\x7bd\x7d...".toList] else []
    let stop := if spin then [Event.stopSpinner] else []
    if completion then
      match task with
      | none => none
      | some t =>
        some { ret := t.sent, main := pre ++ start ++ [Event.select true] ++ stop,
               spawned := true, task := some t }
    else
      some { ret := some (GoError.errorf
               ("error opening the UI, the container is not running after ".toList ++
                 w.formatDuration timeout)),
             main := pre ++ start ++ [Event.select false] ++ stop,
             spawned := true, task := none }

/-- The method `webCmd.Execute`. -/
def webCmd.Execute (w : World) (fuel : Nat) (completion : Bool) (_args : List GoString) :
    Option Outcome :=
  OpenUI w fuel completion (2 * Second)

/-! ## prune.go -/

/-- The command `prune` with its flag `--images`. -/
structure pruneCmd where
  Images : Bool

/-- The method `pruneCmd.Execute`, over the runner `compose.Run`: the returned error
and the argument lists of the calls of the runner, in order. -/
def pruneCmd.Execute (Run : List GoString → Option GoError) (c : pruneCmd)
    (_args : List GoString) : Option GoError × List (List GoString) :=
  let a := ["down".toList, "--volumes".toList]
  let a := if c.Images then a ++ ["--rmi".toList, "all".toList] else a
  (Run a, [a])

/-! ## Vocabulary of the statements -/

/-- The text written to standard output by `k` consecutive probes, starting with
call number `n`, in the order of the calls. -/
def written (w : World) : Nat → Nat → GoString
  | _, 0 => []
  | n, k + 1 => (w.RunWithIO n portArgs).out ++ written w (n + 1) k

/-- The events of `k` failed probes: each probe is followed by a sleep of one second. -/
def failedPolls : Nat → List Event
  | 0 => []
  | k + 1 => Event.run portArgs :: Event.sleep (1 * Second) :: failedPolls k

/-- The events of the polling when call number `k` of the probe is the first without
error: nothing when that is the first check, else `k - 1` failed polls and the
successful one. -/
def pollEvents : Nat → List Event
  | 0 => []
  | k + 1 => failedPolls k ++ [Event.run portArgs]

/-- The events of `j` failed requests of `url`: each is followed by a sleep of one second. -/
def failedGets (url : GoString) : Nat → List Event
  | 0 => []
  | j + 1 => Event.get url :: Event.sleep (1 * Second) :: failedGets url j

/-- Whether an event is a probe. -/
def Event.isRun : Event → Bool
  | .run _ => true
  | _ => false

/-- Whether an event is a sleep. -/
def Event.isSleep : Event → Bool
  | .sleep _ => true
  | _ => false

/-- Whether an event is a start of the spinner. -/
def Event.isStart : Event → Bool
  | .startSpinner _ => true
  | _ => false

/-- Whether an event belongs to `openUI`: a request or the launch of the browser. -/
def Event.isOpen : Event → Bool
  | .get _ => true
  | .openURL _ => true
  | _ => false

/-- The message of the error that the goroutine sends for an empty address. -/
def notFound : GoError :=
  GoError.errorf ("could not find the public port of ".toList ++ containerName)

/-- The error that `OpenUI` returns when the timer fires. -/
def timedOut (w : World) (timeout : Int) : GoError :=
  GoError.errorf ("error opening the UI, the container is not running after ".toList ++
    w.formatDuration timeout)

/-- The events of the calling flow of `OpenUI` once the fail-fast check is passed. -/
def mainEvents (completion : Bool) (timeout : Int) : List Event :=
  [Event.run portArgs, Event.println banner] ++
    (if timeout > 5 * Second then
      [Event.startSpinner "Initializing source\x7bd\x7d...".toList] else []) ++
    [Event.select completion] ++
    (if timeout > 5 * Second then [Event.stopSpinner] else [])

/-! ## Sample worlds -/

/-- A formatting of the two durations used in the examples. -/
def sampleFormat (d : Int) : GoString :=
  if d = 2 * Second then "2s".toList else if d = 10 * Second then "10s".toList else []

/-- A world whose working directory is malformed: every probe fails with that error. -/
def malformedWorld : World where
  RunWithIO := fun _ _ => ⟨[], some (GoError.ext Kind.ErrMalformed "malformed".toList)⟩
  Get := fun _ _ => true
  OpenURL := fun _ => none
  formatDuration := sampleFormat

/-- A world whose first probe reports the port at once, whose first request of the
URL fails and whose later requests succeed. -/
def slowHttpWorld : World where
  RunWithIO := fun _ _ => ⟨"0.0.0.0:8088\n".toList, none⟩
  Get := fun n _ => decide (0 < n)
  OpenURL := fun _ => none
  formatDuration := sampleFormat

/-- A world whose probe succeeds at once and writes only a line break. -/
def blankWorld : World where
  RunWithIO := fun _ _ => ⟨"\n".toList, none⟩
  Get := fun _ _ => true
  OpenURL := fun _ => none
  formatDuration := sampleFormat

/-- A world in which the first check and the first poll fail, writing a warning each,
and the second poll reports the port; the browser cannot be launched. -/
def pollingWorld : World where
  RunWithIO := fun n _ =>
    if n < 2 then ⟨"WARN\n".toList, some (GoError.ext Kind.other "no container".toList)⟩
    else ⟨"0.0.0.0:8088\n".toList, none⟩
  Get := fun _ _ => true
  OpenURL := fun _ => some (GoError.ext Kind.other "no browser".toList)
  formatDuration := sampleFormat

/-- The world `pollingWorld` with other errors on its failed probes. -/
def pollingWorld.errors : Nat → List GoString → RunResult := fun n _ =>
  if n < 2 then ⟨"WARN\n".toList, some (GoError.errorf "exit status 1".toList)⟩
  else ⟨"0.0.0.0:8088\n".toList, none⟩

/-- The run of `OpenUI` in `pollingWorld` with a timeout of 10 seconds whose `select`
takes the timer. -/
def pollingWorld.timerRun : Outcome where
  ret := some (GoError.errorf
    "error opening the UI, the container is not running after 10s".toList)
  main := [Event.run portArgs, Event.println banner,
    Event.startSpinner "Initializing source\x7bd\x7d...".toList, Event.select false,
    Event.stopSpinner]
  spawned := true
  task := none

/-- The finished goroutine of `OpenUI` in `pollingWorld`. -/
def pollingWorld.taskRun : TaskRun where
  address := "WARN\nWARN\n0.0.0.0:8088".toList
  sent := some (GoError.wrap (GoError.ext Kind.other "no browser".toList)
    "could not open the browser".toList)
  trace := [Event.run portArgs, Event.sleep (1 * Second), Event.run portArgs,
    Event.get "http://WARN\nWARN\n127.0.0.1:8088".toList,
    Event.openURL "http://WARN\nWARN\n127.0.0.1:8088".toList]

/-- The run of `OpenUI` in `pollingWorld` with a timeout of 10 seconds whose `select`
takes the completion channel. -/
def pollingWorld.completedRun : Outcome where
  ret := pollingWorld.taskRun.sent
  main := [Event.run portArgs, Event.println banner,
    Event.startSpinner "Initializing source\x7bd\x7d...".toList, Event.select true,
    Event.stopSpinner]
  spawned := true
  task := some pollingWorld.taskRun

/-! ## Lemmas on the loops -/

theorem written_succ_right (w : World) (k n : Nat) :
    written w n (k + 1) = written w n k ++ (w.RunWithIO (n + k) portArgs).out := by
  induction k generalizing n with
  | zero => simp [written]
  | succ k ih =>
    rw [written, ih (n + 1), written]
    simp [List.append_assoc, Nat.add_assoc, Nat.add_comm 1 k]

theorem waitForContainer_first_success (w : World) (k : Nat) :
    ∀ (fuel n : Nat) (stdout : GoString),
      (∀ i, i < k → (w.RunWithIO (n + i) portArgs).err ≠ none) →
      (w.RunWithIO (n + k) portArgs).err = none → k < fuel →
      waitForContainer w fuel n stdout =
        some (stdout ++ written w n (k + 1), failedPolls k ++ [Event.run portArgs]) := by
  induction k with
  | zero =>
    intro fuel n stdout _ hok hfuel
    obtain ⟨f, rfl⟩ : ∃ f, fuel = f + 1 := ⟨fuel - 1, by omega⟩
    simp only [Nat.add_zero] at hok
    simp [waitForContainer, hok, written, failedPolls]
  | succ k ih =>
    intro fuel n stdout hfail hok hfuel
    obtain ⟨f, rfl⟩ : ∃ f, fuel = f + 1 := ⟨fuel - 1, by omega⟩
    have h0 : (w.RunWithIO n portArgs).err ≠ none := by
      have := hfail 0 (by omega)
      simpa using this
    have hrec := ih f (n + 1) (stdout ++ (w.RunWithIO n portArgs).out)
      (fun i hi => by
        have := hfail (i + 1) (by omega)
        rwa [show n + 1 + i = n + (i + 1) by omega])
      (by rwa [show n + 1 + k = n + (k + 1) by omega]) (by omega)
    rw [waitForContainer]
    simp only [h0, if_false]
    rw [hrec]
    simp [written, failedPolls, List.append_assoc]

theorem openUI_loop_first_success (w : World) (url : GoString) (j : Nat) :
    ∀ (fuel n : Nat),
      (∀ i, i < j → w.Get (n + i) url = false) → w.Get (n + j) url = true → j < fuel →
      openUI.loop w url fuel n = some (failedGets url j ++ [Event.get url]) := by
  induction j with
  | zero =>
    intro fuel n _ hok hfuel
    obtain ⟨f, rfl⟩ : ∃ f, fuel = f + 1 := ⟨fuel - 1, by omega⟩
    simp only [Nat.add_zero] at hok
    simp [openUI.loop, hok, failedGets]
  | succ j ih =>
    intro fuel n hfail hok hfuel
    obtain ⟨f, rfl⟩ : ∃ f, fuel = f + 1 := ⟨fuel - 1, by omega⟩
    have h0 : w.Get n url = false := by
      have := hfail 0 (by omega)
      simpa using this
    have hrec := ih f (n + 1)
      (fun i hi => by
        have := hfail (i + 1) (by omega)
        rwa [show n + 1 + i = n + (i + 1) by omega])
      (by rwa [show n + 1 + j = n + (j + 1) by omega]) (by omega)
    rw [openUI.loop]
    simp only [h0]
    rw [hrec]
    simp [failedGets]

/-! ## Lemmas on `checkFailFast`, the goroutine and `OpenUI` -/

theorem checkFailFast_err (w : World) (stdout : GoString) :
    (checkFailFast w stdout).1.2 = (w.RunWithIO 0 portArgs).err := by
  unfold checkFailFast
  dsimp only
  split_ifs with h1 h2
  · rfl
  · rfl
  · simp only [ne_eq, not_not] at h2
    simp [h2]

theorem checkFailFast_out (w : World) (stdout : GoString) :
    (checkFailFast w stdout).2 = stdout ++ (w.RunWithIO 0 portArgs).out := by
  unfold checkFailFast
  dsimp only
  split_ifs <;> rfl

theorem checkFailFast_flag (w : World) (stdout : GoString) :
    (checkFailFast w stdout).1.1 =
      (Kind.ErrMalformed.Is (w.RunWithIO 0 portArgs).err ||
        Kind.ErrNotExist.Is (w.RunWithIO 0 portArgs).err ||
        Kind.ErrNotValid.Is (w.RunWithIO 0 portArgs).err) := by
  unfold checkFailFast
  dsimp only
  split_ifs with h1 h2
  · simp [h1]
  · simpa using h1
  · simpa using h1

theorem OpenUI_failFast (w : World) (fuel : Nat) (completion : Bool) (timeout : Int)
    (h : (checkFailFast w []).1.1 = true) :
    OpenUI w fuel completion timeout =
      some { ret := (w.RunWithIO 0 portArgs).err, main := [Event.run portArgs],
             spawned := false, task := none } := by
  have he := checkFailFast_err w []
  unfold OpenUI
  rcases hc : checkFailFast w [] with ⟨⟨ff, err⟩, out⟩
  rw [hc] at h he
  simp only at h he
  subst h
  simp [he]

theorem OpenUI_passed (w : World) (fuel : Nat) (completion : Bool) (timeout : Int)
    (h : (checkFailFast w []).1.1 = false) :
    OpenUI w fuel completion timeout =
      if completion then
        (OpenUI.task w fuel (decide ((w.RunWithIO 0 portArgs).err = none))
            (w.RunWithIO 0 portArgs).out).map
          (fun t => { ret := t.sent, main := mainEvents true timeout,
                      spawned := true, task := some t })
      else
        some { ret := some (timedOut w timeout), main := mainEvents false timeout,
               spawned := true, task := none } := by
  have he := checkFailFast_err w []
  have ho := checkFailFast_out w []
  unfold OpenUI
  rcases hc : checkFailFast w [] with ⟨⟨ff, err⟩, out⟩
  rw [hc] at h he ho
  simp only [List.nil_append] at h he ho
  subst h he ho
  cases completion
  · simp [mainEvents, timedOut]
  · cases ht : OpenUI.task w fuel (decide ((w.RunWithIO 0 portArgs).err = none))
        (w.RunWithIO 0 portArgs).out <;> simp [mainEvents, ht]

theorem openUI_first_success (w : World) (fuel j : Nat) (address : GoString)
    (hfail : ∀ i, i < j → w.Get i (openUI.url address) = false)
    (hok : w.Get j (openUI.url address) = true) (hfuel : j < fuel) :
    openUI w fuel address =
      some ((w.OpenURL (openUI.url address)).map
              (fun err => GoError.wrap err "could not open the browser".toList),
            failedGets (openUI.url address) j ++
              [Event.get (openUI.url address), Event.openURL (openUI.url address)]) := by
  have hl := openUI_loop_first_success w (openUI.url address) j fuel 0
    (by simpa using hfail) (by simpa using hok) hfuel
  unfold openUI
  simp only [hl]
  cases w.OpenURL (openUI.url address) <;> simp

theorem task_first_success (w : World) (fuel k : Nat)
    (hfail : ∀ i, i < k → (w.RunWithIO i portArgs).err ≠ none)
    (hok : (w.RunWithIO k portArgs).err = none) (hfuel : k < fuel) :
    OpenUI.task w fuel (decide ((w.RunWithIO 0 portArgs).err = none))
        (w.RunWithIO 0 portArgs).out =
      if TrimSpace (written w 0 (k + 1)) = [] then
        some { address := [], sent := some notFound, trace := pollEvents k }
      else
        (openUI w fuel (TrimSpace (written w 0 (k + 1)))).map
          (fun p => { address := TrimSpace (written w 0 (k + 1)), sent := p.1,
                      trace := pollEvents k ++ p.2 }) := by
  cases k with
  | zero =>
    unfold OpenUI.task
    simp only [hok, decide_True, Bool.not_true, Bool.false_eq_true, if_false]
    simp only [written, List.append_nil, pollEvents, List.nil_append]
    split_ifs with h
    · simp [h, notFound]
    · cases openUI w fuel (TrimSpace (w.RunWithIO 0 portArgs).out) <;> simp
  | succ k =>
    have h0 : (w.RunWithIO 0 portArgs).err ≠ none := hfail 0 (by omega)
    have hw := waitForContainer_first_success w k fuel 1 (w.RunWithIO 0 portArgs).out
      (fun i hi => by
        have := hfail (i + 1) (by omega)
        rwa [show 1 + i = i + 1 by omega])
      (by rwa [show 1 + k = k + 1 by omega]) (by omega)
    have hwr : written w 0 (k + 1 + 1) =
        (w.RunWithIO 0 portArgs).out ++ written w 1 (k + 1) := by
      rw [written]
    unfold OpenUI.task
    simp only [h0, decide_False, Bool.not_false, if_true, hw, hwr, pollEvents]
    split_ifs with h
    · simp [h, notFound]
    · cases openUI w fuel
        (TrimSpace ((w.RunWithIO 0 portArgs).out ++ written w 1 (k + 1))) <;> simp

/-! ## Lemmas on `strings.Contains` and `strings.Replace` -/

theorem Contains_iff_isInfix (s substr : GoString) :
    Contains s substr = true ↔ substr <:+: s := by
  induction s with
  | nil =>
    simp [Contains, List.infix_nil]
  | cons c cs ih =>
    rw [Contains, Bool.or_eq_true, ih, List.isPrefixOf_iff_prefix, List.infix_cons_iff]

theorem Contains_iff (s substr : GoString) :
    Contains s substr = true ↔ ∃ pre post, s = pre ++ substr ++ post := by
  rw [Contains_iff_isInfix]
  constructor
  · rintro ⟨pre, post, h⟩
    exact ⟨pre, post, h.symm⟩
  · rintro ⟨pre, post, h⟩
    exact ⟨pre, post, h.symm⟩

/-- A substring that lies in `a ++ c :: b` and does not use `c` lies in `a` or in `b`. -/
theorem Contains_split (a b substr : GoString) (c : Char) (hc : c ∉ substr)
    (h : Contains (a ++ c :: b) substr = true) :
    Contains a substr = true ∨ Contains b substr = true := by
  rw [Contains_iff] at h
  obtain ⟨x, y, hxy⟩ := h
  have h : x ++ (substr ++ y) = a ++ c :: b := by rw [hxy]; simp
  clear hxy
  rw [List.append_eq_append_iff] at h
  rcases h with ⟨a', rfl, h⟩ | ⟨c', rfl, h⟩
  · -- the occurrence starts inside `a`
    rw [List.append_eq_append_iff] at h
    rcases h with ⟨d, rfl, _⟩ | ⟨d, rfl, h⟩
    · left
      rw [Contains_iff]
      exact ⟨x, d, by simp⟩
    · cases d with
      | nil =>
        left
        rw [Contains_iff]
        exact ⟨x, [], by simp⟩
      | cons e d =>
        simp only [List.cons_append, List.cons.injEq] at h
        exact absurd (by simp [h.1]) hc
  · -- the occurrence starts at `c` or later
    cases c' with
    | nil =>
      cases substr with
      | nil =>
        left
        rw [Contains_iff]
        exact ⟨[], a, by simp⟩
      | cons e p =>
        simp only [List.nil_append, List.cons_append, List.cons.injEq] at h
        exact absurd (by simp [h.1]) hc
    | cons e c'' =>
      simp only [List.cons_append, List.cons.injEq] at h
      right
      rw [Contains_iff]
      exact ⟨c'', y, by rw [h.2]; simp⟩

/-- The call `strings.Replace(s, old, new, 1)` rewrites the first occurrence of `old`. -/
theorem Replace1_first (s old : GoString) (hold : old ≠ []) (h : Contains s old = true) :
    ∃ pre post, s = pre ++ old ++ post ∧
      (∀ pre' post', s = pre' ++ old ++ post' → pre.length ≤ pre'.length) ∧
      ∀ new, Replace1 s old new = pre ++ new ++ post := by
  induction s with
  | nil =>
    simp only [Contains, List.isPrefixOf_iff_prefix, List.prefix_nil] at h
    exact absurd h hold
  | cons c cs ih =>
    by_cases hp : old.isPrefixOf (c :: cs) = true
    · refine ⟨[], (c :: cs).drop old.length, ?_, fun _ _ _ => by simp, fun new => ?_⟩
      · rw [List.isPrefixOf_iff_prefix, List.prefix_iff_eq_append] at hp
        simpa using hp.symm
      · rw [Replace1]
        simp [hp]
    · have hcs : Contains cs old = true := by
        rw [Contains, Bool.or_eq_true] at h
        exact h.resolve_left hp
      obtain ⟨pre, post, hs, hmin, hrep⟩ := ih hcs
      refine ⟨c :: pre, post, by simp [hs], fun pre' post' h' => ?_, fun new => ?_⟩
      · cases pre' with
        | nil =>
          exfalso
          apply hp
          rw [List.isPrefixOf_iff_prefix]
          exact ⟨post', by simpa using h'.symm⟩
        | cons e pre'' =>
          simp only [List.cons_append, List.cons.injEq] at h'
          have := hmin pre'' post' (by simpa using h'.2)
          simp only [List.length_cons]
          omega
      · rw [Replace1]
        simp [hp, hrep new]

/-- Before its first occurrence, a substring does not occur. -/
theorem not_Contains_before_first (pre post old : GoString) (hold : old ≠ [])
    (hmin : ∀ pre' post', pre ++ old ++ post = pre' ++ old ++ post' →
      pre.length ≤ pre'.length) :
    Contains pre old = false := by
  by_contra hc
  rw [Bool.not_eq_false, Contains_iff] at hc
  obtain ⟨x, y, rfl⟩ := hc
  have := hmin x (y ++ old ++ post) (by simp)
  have hl : 0 < old.length := List.length_pos.mpr hold
  simp only [List.length_append] at this
  omega

/-! ## Lemmas on worlds that differ in the errors of their probes -/

theorem openUI_loop_congr (w w' : World) (hGet : w'.Get = w.Get) (url : GoString) :
    ∀ fuel k, openUI.loop w' url fuel k = openUI.loop w url fuel k := by
  intro fuel
  induction fuel with
  | zero => intro k; rfl
  | succ f ih =>
    intro k
    rw [openUI.loop, openUI.loop, ih (k + 1), hGet]

theorem openUI_congr (w w' : World) (hGet : w'.Get = w.Get) (hOpen : w'.OpenURL = w.OpenURL)
    (fuel : Nat) (address : GoString) : openUI w' fuel address = openUI w fuel address := by
  unfold openUI
  dsimp only
  rw [openUI_loop_congr w w' hGet, hOpen]

theorem waitForContainer_congr (w w' : World)
    (hout : ∀ n a, (w'.RunWithIO n a).out = (w.RunWithIO n a).out)
    (herr : ∀ n a, (w'.RunWithIO n a).err = none ↔ (w.RunWithIO n a).err = none) :
    ∀ fuel n stdout, waitForContainer w' fuel n stdout = waitForContainer w fuel n stdout := by
  intro fuel
  induction fuel with
  | zero => intro n stdout; rfl
  | succ f ih =>
    intro n stdout
    rw [waitForContainer, waitForContainer]
    simp only [hout, ih]
    by_cases h : (w.RunWithIO n portArgs).err = none
    · simp [h, (herr n portArgs).mpr h]
    · have h' : ¬ (w'.RunWithIO n portArgs).err = none := fun e => h ((herr n portArgs).mp e)
      simp [h, h']

theorem task_congr (w w' : World)
    (hout : ∀ n a, (w'.RunWithIO n a).out = (w.RunWithIO n a).out)
    (herr : ∀ n a, (w'.RunWithIO n a).err = none ↔ (w.RunWithIO n a).err = none)
    (hGet : w'.Get = w.Get) (hOpen : w'.OpenURL = w.OpenURL)
    (fuel : Nat) (ready : Bool) (stdout : GoString) :
    OpenUI.task w' fuel ready stdout = OpenUI.task w fuel ready stdout := by
  unfold OpenUI.task
  simp only [waitForContainer_congr w w' hout herr, openUI_congr w w' hGet hOpen]

theorem countP_isRun_failedPolls (k : Nat) : (failedPolls k).countP Event.isRun = k := by
  induction k with
  | zero => rfl
  | succ k ih => simp [failedPolls, List.countP_cons, Event.isRun, ih]

theorem countP_isSleep_failedPolls (k : Nat) : (failedPolls k).countP Event.isSleep = k := by
  induction k with
  | zero => rfl
  | succ k ih => simp [failedPolls, List.countP_cons, Event.isSleep, ih]

theorem countP_isSleep_failedGets (url : GoString) (j : Nat) :
    (failedGets url j).countP Event.isSleep = j := by
  induction j with
  | zero => rfl
  | succ j ih => simp [failedGets, List.countP_cons, Event.isSleep, ih]

theorem isRun_failedGets (url : GoString) (j : Nat) :
    ∀ ev, ev ∈ failedGets url j → ev.isRun = false := by
  induction j with
  | zero => intro ev h; simp [failedGets] at h
  | succ j ih =>
    intro ev h
    simp only [failedGets, List.mem_cons] at h
    rcases h with rfl | rfl | h
    · rfl
    · rfl
    · exact ih ev h

theorem isOpen_pollEvents (k : Nat) : ∀ ev, ev ∈ pollEvents k → ev.isOpen = false := by
  have hf : ∀ k ev, ev ∈ failedPolls k → ev.isOpen = false := by
    intro k
    induction k with
    | zero => intro ev h; simp [failedPolls] at h
    | succ k ih =>
      intro ev h
      simp only [failedPolls, List.mem_cons] at h
      rcases h with rfl | rfl | h
      · rfl
      · rfl
      · exact ih ev h
  cases k with
  | zero => intro ev h; simp [pollEvents] at h
  | succ k =>
    intro ev h
    simp only [pollEvents, List.mem_append, List.mem_singleton] at h
    rcases h with h | rfl
    · exact hf k ev h
    · rfl

theorem isRun_openUI_loop (w : World) (url : GoString) :
    ∀ fuel k tr, openUI.loop w url fuel k = some tr → ∀ ev, ev ∈ tr → ev.isRun = false := by
  intro fuel
  induction fuel with
  | zero => intro k tr h; simp [openUI.loop] at h
  | succ f ih =>
    intro k tr h ev hev
    rw [openUI.loop] at h
    split_ifs at h with hg
    · simp only [Option.some.injEq] at h
      subst h
      simp only [List.mem_singleton] at hev
      subst hev
      rfl
    · rw [Option.map_eq_some'] at h
      obtain ⟨tr', htr', rfl⟩ := h
      simp only [List.mem_cons] at hev
      rcases hev with rfl | rfl | hev
      · rfl
      · rfl
      · exact ih (k + 1) tr' htr' ev hev

theorem isRun_openUI (w : World) (fuel : Nat) (address : GoString)
    (p : Option GoError × List Event) (h : openUI w fuel address = some p) :
    ∀ ev, ev ∈ p.2 → ev.isRun = false := by
  unfold openUI at h
  dsimp only at h
  cases hl : openUI.loop w (openUI.url address) fuel 0 with
  | none => simp [hl] at h
  | some tr =>
    have htr := isRun_openUI_loop w _ fuel 0 tr hl
    rw [hl] at h
    intro ev hev
    cases ho : w.OpenURL (openUI.url address) with
    | none =>
      simp only [ho, Option.some.injEq] at h
      subst h
      simp only [List.mem_append, List.mem_singleton] at hev
      rcases hev with hev | rfl
      · exact htr ev hev
      · rfl
    | some e =>
      simp only [ho, Option.some.injEq] at h
      subst h
      simp only [List.mem_append, List.mem_singleton] at hev
      rcases hev with hev | rfl
      · exact htr ev hev
      · rfl

/-! ## The claims -/

/-- C1: when the first readiness check (`checkFailFast`) returns an error that is
`workdir.ErrMalformed`, `dir.ErrNotExist` or `dir.ErrNotValid`, `OpenUI` returns
exactly that error, whatever the timeout and the scheduling: its only event is
the first probe, the goroutine is not started (so no poll iteration is made) and
the spinner is not started. -/
theorem C1_fail_fast_returns_first_error (w : World) (fuel : Nat) (completion : Bool)
    (timeout : Int)
    (h : Kind.ErrMalformed.Is (checkFailFast w []).1.2 = true ∨
         Kind.ErrNotExist.Is (checkFailFast w []).1.2 = true ∨
         Kind.ErrNotValid.Is (checkFailFast w []).1.2 = true) :
    (checkFailFast w []).1.1 = true ∧ (checkFailFast w []).1.2 ≠ none ∧
    OpenUI w fuel completion timeout =
      some { ret := (checkFailFast w []).1.2, main := [Event.run portArgs],
             spawned := false, task := none } := by
  have hflag : (checkFailFast w []).1.1 = true := by
    rw [checkFailFast_flag]
    rw [checkFailFast_err] at h
    rcases h with h | h | h <;> simp [h]
  refine ⟨hflag, ?_, ?_⟩
  · intro hn
    rw [hn] at h
    simp [Kind.Is] at h
  · rw [OpenUI_failFast w fuel completion timeout hflag, checkFailFast_err]

theorem C1_fail_fast_returns_first_error_witness :
    (checkFailFast malformedWorld []).1.1 = true ∧
    (checkFailFast malformedWorld []).1.2 ≠ none ∧
    OpenUI malformedWorld 0 true (10 * Second) =
      some { ret := (checkFailFast malformedWorld []).1.2, main := [Event.run portArgs],
             spawned := false, task := none } :=
  C1_fail_fast_returns_first_error malformedWorld 0 true (10 * Second) (Or.inl (by decide))

/-- C2, as stated, fails: only the first occurrence of the wildcard host is
rewritten, so the URL built from an address with two occurrences still contains
the wildcard host. -/
theorem C2_counterexample :
    Contains "0.0.0.0:8088\n0.0.0.0:8088".toList "0.0.0.0".toList = true ∧
    openUI.url "0.0.0.0:8088\n0.0.0.0:8088".toList =
      "http://127.0.0.1:8088\n0.0.0.0:8088".toList ∧
    Contains (openUI.url "0.0.0.0:8088\n0.0.0.0:8088".toList) "0.0.0.0".toList = true := by
  decide

/-- C2, amended: for an address that contains the wildcard host, the URL is
`http://` followed by the address with the first occurrence of the wildcard host
rewritten to the loopback host and everything else unchanged; the URL contains
the loopback host, and it contains the wildcard host exactly when the text after
that first occurrence does; for `0.0.0.0:8088` the URL is `http://127.0.0.1:8088`. -/
theorem C2_first_wildcard_rewritten (address : GoString)
    (h : Contains address "0.0.0.0".toList = true) :
    (∃ pre post, address = pre ++ "0.0.0.0".toList ++ post ∧
      (∀ pre' post', address = pre' ++ "0.0.0.0".toList ++ post' →
        pre.length ≤ pre'.length) ∧
      openUI.url address = "http://".toList ++ pre ++ "127.0.0.1".toList ++ post ∧
      Contains (openUI.url address) "127.0.0.1".toList = true ∧
      Contains (openUI.url address) "0.0.0.0".toList = Contains post "0.0.0.0".toList) ∧
    openUI.url "0.0.0.0:8088".toList = "http://127.0.0.1:8088".toList := by
  refine ⟨?_, by decide⟩
  obtain ⟨pre, post, hs, hmin, hrep⟩ :=
    Replace1_first address "0.0.0.0".toList (by decide) h
  have hurl : openUI.url address =
      "http://".toList ++ pre ++ "127.0.0.1".toList ++ post := by
    unfold openUI.url
    rw [hrep]
    simp [List.append_assoc]
  refine ⟨pre, post, hs, hmin, hurl, ?_, ?_⟩
  · rw [Contains_iff]
    exact ⟨"http://".toList ++ pre, post, hurl⟩
  · have hpre : Contains pre "0.0.0.0".toList = false :=
      not_Contains_before_first pre post "0.0.0.0".toList (by decide)
        (fun pre' post' h' => hmin pre' post' (hs.trans h'))
    cases hpost : Contains post "0.0.0.0".toList with
    | true =>
      rw [Contains_iff] at hpost ⊢
      obtain ⟨x, y, rfl⟩ := hpost
      exact ⟨"http://".toList ++ pre ++ "127.0.0.1".toList ++ x, y, by
        rw [hurl]; simp [List.append_assoc]⟩
    | false =>
      by_contra hc
      rw [Bool.not_eq_false, hurl] at hc
      have e : "http://".toList ++ pre ++ "127.0.0.1".toList ++ post =
          ("http:/".toList ++ '/' :: pre) ++ '1' :: ([] ++ '2' :: ([] ++ '7' ::
            (".0.0.".toList ++ '1' :: post))) := by
        simp [List.append_assoc]
      rw [e] at hc
      rcases Contains_split _ _ _ '1' (by decide) hc with h1 | h1
      · rcases Contains_split _ _ _ '/' (by decide) h1 with h2 | h2
        · exact absurd h2 (by decide)
        · rw [hpre] at h2
          exact absurd h2 (by decide)
      · rcases Contains_split _ _ _ '2' (by decide) h1 with h2 | h2
        · exact absurd h2 (by decide)
        · rcases Contains_split _ _ _ '7' (by decide) h2 with h3 | h3
          · exact absurd h3 (by decide)
          · rcases Contains_split _ _ _ '1' (by decide) h3 with h4 | h4
            · exact absurd h4 (by decide)
            · rw [hpost] at h4
              exact absurd h4 (by decide)

theorem C2_first_wildcard_rewritten_witness :
    Contains "localhost 0.0.0.0:8088".toList "0.0.0.0".toList = true ∧
    ((∃ pre post, "localhost 0.0.0.0:8088".toList = pre ++ "0.0.0.0".toList ++ post ∧
      (∀ pre' post', "localhost 0.0.0.0:8088".toList = pre' ++ "0.0.0.0".toList ++ post' →
        pre.length ≤ pre'.length) ∧
      openUI.url "localhost 0.0.0.0:8088".toList =
        "http://".toList ++ pre ++ "127.0.0.1".toList ++ post ∧
      Contains (openUI.url "localhost 0.0.0.0:8088".toList) "127.0.0.1".toList = true ∧
      Contains (openUI.url "localhost 0.0.0.0:8088".toList) "0.0.0.0".toList =
        Contains post "0.0.0.0".toList) ∧
    openUI.url "0.0.0.0:8088".toList = "http://127.0.0.1:8088".toList) :=
  ⟨by decide, C2_first_wildcard_rewritten "localhost 0.0.0.0:8088".toList (by decide)⟩

/-- C8: `pruneCmd.Execute` calls the runner exactly once, with `down --volumes` when
`Images` is false and with `down --volumes --rmi all` when it is true, and returns
the error of the runner unchanged; `--rmi` is passed exactly when the flag is set. -/
theorem C8_prune_arguments (Run : List GoString → Option GoError) (c : pruneCmd)
    (args : List GoString) :
    pruneCmd.Execute Run c args =
      (if c.Images = true then
        (Run ["down".toList, "--volumes".toList, "--rmi".toList, "all".toList],
          [["down".toList, "--volumes".toList, "--rmi".toList, "all".toList]])
      else
        (Run ["down".toList, "--volumes".toList],
          [["down".toList, "--volumes".toList]])) ∧
    (pruneCmd.Execute Run c args).2.length = 1 ∧
    ((∃ a, a ∈ (pruneCmd.Execute Run c args).2 ∧ "--rmi".toList ∈ a) ↔ c.Images = true) := by
  rcases c with ⟨_ | _⟩
  · refine ⟨by simp [pruneCmd.Execute], by simp [pruneCmd.Execute], ?_⟩
    simp only [pruneCmd.Execute, Bool.false_eq_true, if_false, List.mem_singleton,
      exists_eq_left, iff_false]
    decide
  · refine ⟨by simp [pruneCmd.Execute], by simp [pruneCmd.Execute], ?_⟩
    simp only [pruneCmd.Execute, if_true, List.mem_singleton, exists_eq_left, iff_true]
    decide

/-- C3: on a run that passes the fail-fast check, when call number `k` of the probe
is the first without error and the text collected in the buffer is empty after
trimming, the goroutine ends and sends an error whose message is
`could not find the public port of sourced-ui`; it has made no request and has not
launched the browser (`openUI` is not called), and `OpenUI` returns that error
when the completion channel is taken. -/
theorem C3_empty_address_not_found (w : World) (fuel k : Nat) (timeout : Int)
    (hff : (checkFailFast w []).1.1 = false)
    (hfail : ∀ i, i < k → (w.RunWithIO i portArgs).err ≠ none)
    (hok : (w.RunWithIO k portArgs).err = none) (hfuel : k < fuel)
    (hempty : TrimSpace (written w 0 (k + 1)) = []) :
    ∃ t e, OpenUI.task w fuel (decide ((checkFailFast w []).1.2 = none))
        (checkFailFast w []).2 = some t ∧
      t.address = [] ∧ t.sent = some e ∧
      e.Error = "could not find the public port of sourced-ui".toList ∧
      (∀ ev, ev ∈ t.trace → ev.isOpen = false) ∧
      OpenUI w fuel true timeout =
        some { ret := some e,
               main := [Event.run portArgs, Event.println banner] ++
                 (if timeout > 5 * Second then
                   [Event.startSpinner "Initializing source\x7bd\x7d...".toList] else []) ++
                 [Event.select true] ++
                 (if timeout > 5 * Second then [Event.stopSpinner] else []),
               spawned := true, task := some t } := by
  have ht := task_first_success w fuel k hfail hok hfuel
  rw [if_pos hempty] at ht
  refine ⟨{ address := [], sent := some notFound, trace := pollEvents k }, notFound,
    ?_, rfl, rfl, by decide, isOpen_pollEvents k, ?_⟩
  · rw [checkFailFast_err, checkFailFast_out]
    exact ht
  · rw [OpenUI_passed w fuel true timeout hff, if_pos rfl, ht]
    rfl

theorem C3_empty_address_not_found_witness :
    ∃ t e, OpenUI.task blankWorld 1 (decide ((checkFailFast blankWorld []).1.2 = none))
        (checkFailFast blankWorld []).2 = some t ∧
      t.address = [] ∧ t.sent = some e ∧
      e.Error = "could not find the public port of sourced-ui".toList ∧
      (∀ ev, ev ∈ t.trace → ev.isOpen = false) ∧
      OpenUI blankWorld 1 true (2 * Second) =
        some { ret := some e,
               main := [Event.run portArgs, Event.println banner] ++
                 (if 2 * Second > 5 * Second then
                   [Event.startSpinner "Initializing source\x7bd\x7d...".toList] else []) ++
                 [Event.select true] ++
                 (if 2 * Second > 5 * Second then [Event.stopSpinner] else []),
               spawned := true, task := some t } :=
  C3_empty_address_not_found blankWorld 1 0 (2 * Second) (by decide) (by decide) (by decide)
    (by decide) (by decide)

/-- C4, as stated, fails: the first probe succeeds at once with a non-empty address,
the first request of the URL fails, and the goroutine sleeps one second before it
launches the browser. -/
theorem C4_counterexample :
    (checkFailFast slowHttpWorld []).1 = (false, none) ∧
    TrimSpace (checkFailFast slowHttpWorld []).2 = "0.0.0.0:8088".toList ∧
    OpenUI slowHttpWorld 2 true (2 * Second) =
      some { ret := none,
             main := [Event.run portArgs, Event.println banner, Event.select true],
             spawned := true,
             task := some {
               address := "0.0.0.0:8088".toList, sent := none,
               trace := [Event.get "http://127.0.0.1:8088".toList, Event.sleep (1 * Second),
                         Event.get "http://127.0.0.1:8088".toList,
                         Event.openURL "http://127.0.0.1:8088".toList] } } := by
  decide

/-- C4, amended: when the first probe succeeds at once with a non-empty address, the
goroutine makes no probe and no sleep before its first request of the URL; it
sleeps one second after each failed request and launches the browser right after
the first successful one, so with `j` failed requests there are `j` sleeps before
the launch, and none when the first request succeeds. -/
theorem C4_sleep_only_after_failed_request (w : World) (fuel j : Nat) (timeout : Int)
    (hff : (checkFailFast w []).1.1 = false)
    (hready : (w.RunWithIO 0 portArgs).err = none)
    (hne : TrimSpace (w.RunWithIO 0 portArgs).out ≠ [])
    (hfail : ∀ i, i < j →
      w.Get i (openUI.url (TrimSpace (w.RunWithIO 0 portArgs).out)) = false)
    (hok : w.Get j (openUI.url (TrimSpace (w.RunWithIO 0 portArgs).out)) = true)
    (hfuel : j < fuel) :
    ∃ o t, OpenUI w fuel true timeout = some o ∧ o.task = some t ∧
      t.trace = failedGets (openUI.url (TrimSpace (w.RunWithIO 0 portArgs).out)) j ++
        [Event.get (openUI.url (TrimSpace (w.RunWithIO 0 portArgs).out)),
         Event.openURL (openUI.url (TrimSpace (w.RunWithIO 0 portArgs).out))] ∧
      (failedGets (openUI.url (TrimSpace (w.RunWithIO 0 portArgs).out)) j).countP
        Event.isSleep = j ∧
      (j = 0 → t.trace =
        [Event.get (openUI.url (TrimSpace (w.RunWithIO 0 portArgs).out)),
         Event.openURL (openUI.url (TrimSpace (w.RunWithIO 0 portArgs).out))]) := by
  have hfuel0 : 0 < fuel := by omega
  have ht := task_first_success w fuel 0 (fun i hi => absurd hi (Nat.not_lt_zero i)) hready hfuel0
  have hw : written w 0 (0 + 1) = (w.RunWithIO 0 portArgs).out := by simp [written]
  rw [hw, if_neg hne, openUI_first_success w fuel j _ hfail hok hfuel] at ht
  simp only [Option.map_some', pollEvents, List.nil_append] at ht
  rw [OpenUI_passed w fuel true timeout hff, if_pos rfl, ht]
  exact ⟨_, _, rfl, rfl, rfl, countP_isSleep_failedGets _ j, fun h => by subst h; rfl⟩

theorem C4_sleep_only_after_failed_request_witness :
    ∃ o t, OpenUI slowHttpWorld 2 true (2 * Second) = some o ∧ o.task = some t ∧
      t.trace =
        failedGets (openUI.url (TrimSpace (slowHttpWorld.RunWithIO 0 portArgs).out)) 1 ++
        [Event.get (openUI.url (TrimSpace (slowHttpWorld.RunWithIO 0 portArgs).out)),
         Event.openURL (openUI.url (TrimSpace (slowHttpWorld.RunWithIO 0 portArgs).out))] ∧
      (failedGets (openUI.url (TrimSpace (slowHttpWorld.RunWithIO 0 portArgs).out)) 1).countP
        Event.isSleep = 1 ∧
      (1 = 0 → t.trace =
        [Event.get (openUI.url (TrimSpace (slowHttpWorld.RunWithIO 0 portArgs).out)),
         Event.openURL (openUI.url (TrimSpace (slowHttpWorld.RunWithIO 0 portArgs).out))]) :=
  C4_sleep_only_after_failed_request slowHttpWorld 2 1 (2 * Second) (by decide) (by decide)
    (by decide) (by decide) (by decide) (by decide)

/-- C5, as stated, fails: on the fail-fast path `OpenUI` returns a non-nil error and
its only event is the first probe, so the banner has not been printed. -/
theorem C5_counterexample :
    OpenUI malformedWorld 1 true (2 * Second) =
      some { ret := some (GoError.ext Kind.ErrMalformed "malformed".toList),
             main := [Event.run portArgs], spawned := false, task := none } ∧
    Event.println banner ∉ [Event.run portArgs] := by
  decide

/-- C5, amended: on every run of `OpenUI` that passes the fail-fast check and returns
(address-not-found, browser-launch or timeout error, or success), the banner is
printed right after the first probe and before the `select` that yields the
returned value; the timer branch of such a run always returns, with a non-nil
error. -/
theorem C5_banner_before_select (w : World) (fuel : Nat) (completion : Bool) (timeout : Int)
    (o : Outcome) (hff : (checkFailFast w []).1.1 = false)
    (h : OpenUI w fuel completion timeout = some o) :
    (∃ rest, o.main = Event.run portArgs :: Event.println banner :: rest ∧
      Event.select completion ∈ rest ∧ Event.println banner ∉ rest) ∧
    (∃ o', OpenUI w fuel false timeout = some o' ∧ o'.ret ≠ none) := by
  rw [OpenUI_passed w fuel completion timeout hff] at h
  constructor
  · cases completion with
    | false =>
      simp only [Bool.false_eq_true, if_false, Option.some.injEq] at h
      subst h
      refine ⟨_, rfl, ?_, ?_⟩
      · simp
      · split_ifs <;> simp
    | true =>
      simp only [if_true, Option.map_eq_some'] at h
      obtain ⟨t, _, rfl⟩ := h
      refine ⟨_, rfl, ?_, ?_⟩
      · simp
      · split_ifs <;> simp
  · rw [OpenUI_passed w fuel false timeout hff]
    exact ⟨_, rfl, by simp⟩

theorem C5_banner_before_select_witness :
    (checkFailFast pollingWorld []).1.1 = false ∧
    OpenUI pollingWorld 0 false (10 * Second) = some pollingWorld.timerRun ∧
    (∃ rest, pollingWorld.timerRun.main =
        Event.run portArgs :: Event.println banner :: rest ∧
      Event.select false ∈ rest ∧ Event.println banner ∉ rest) ∧
    (∃ o', OpenUI pollingWorld 0 false (10 * Second) = some o' ∧ o'.ret ≠ none) :=
  ⟨by decide, by decide,
    C5_banner_before_select pollingWorld 0 false (10 * Second) pollingWorld.timerRun
      (by decide) (by decide)⟩

/-- C6: on every run of `OpenUI` that passes the fail-fast check and returns, the
events of the calling flow are the first probe, the banner, one start of the
spinner exactly when the timeout is more than 5 seconds, the `select`, and one
stop of the spinner exactly when it was started, as the last event before the
return, whichever branch the `select` takes; with a timeout of 2 seconds no
spinner is started, with 10 seconds one is started and stopped. -/
theorem C6_spinner_started_and_stopped_once (w : World) (fuel : Nat) (completion : Bool)
    (timeout : Int) (o : Outcome) (hff : (checkFailFast w []).1.1 = false)
    (h : OpenUI w fuel completion timeout = some o) :
    o.main = [Event.run portArgs, Event.println banner] ++
      (if timeout > 5 * Second then
        [Event.startSpinner "Initializing source\x7bd\x7d...".toList] else []) ++
      [Event.select completion] ++
      (if timeout > 5 * Second then [Event.stopSpinner] else []) ∧
    o.main.countP Event.isStart = (if timeout > 5 * Second then 1 else 0) ∧
    o.main.count Event.stopSpinner = (if timeout > 5 * Second then 1 else 0) ∧
    (timeout > 5 * Second → o.main.getLast? = some Event.stopSpinner) ∧
    (timeout = 2 * Second → o.main.countP Event.isStart = 0) ∧
    (timeout = 10 * Second →
      o.main.countP Event.isStart = 1 ∧ o.main.count Event.stopSpinner = 1) := by
  have hmain : o.main = mainEvents completion timeout := by
    rw [OpenUI_passed w fuel completion timeout hff] at h
    cases completion with
    | false =>
      simp only [Bool.false_eq_true, if_false, Option.some.injEq] at h
      subst h
      rfl
    | true =>
      simp only [if_true, Option.map_eq_some'] at h
      obtain ⟨t, _, rfl⟩ := h
      rfl
  have hstart : o.main.countP Event.isStart = (if timeout > 5 * Second then 1 else 0) := by
    rw [hmain, mainEvents]
    split_ifs <;> simp [List.countP_cons, Event.isStart]
  have hstop : o.main.count Event.stopSpinner = (if timeout > 5 * Second then 1 else 0) := by
    rw [hmain, mainEvents]
    split_ifs <;> simp [List.count_cons]
  refine ⟨hmain, hstart, hstop, ?_, ?_, ?_⟩
  · intro ht
    rw [hmain, mainEvents, if_pos ht, if_pos ht]
    simp
  · rintro rfl
    rw [hstart]
    decide
  · rintro rfl
    rw [hstart, hstop]
    decide

theorem C6_spinner_started_and_stopped_once_witness :
    (checkFailFast pollingWorld []).1.1 = false ∧
    OpenUI pollingWorld 3 true (10 * Second) = some pollingWorld.completedRun ∧
    pollingWorld.completedRun.main = [Event.run portArgs, Event.println banner] ++
      (if 10 * Second > 5 * Second then
        [Event.startSpinner "Initializing source\x7bd\x7d...".toList] else []) ++
      [Event.select true] ++
      (if 10 * Second > 5 * Second then [Event.stopSpinner] else []) ∧
    pollingWorld.completedRun.main.countP Event.isStart =
      (if 10 * Second > 5 * Second then 1 else 0) ∧
    pollingWorld.completedRun.main.count Event.stopSpinner =
      (if 10 * Second > 5 * Second then 1 else 0) ∧
    (10 * Second > 5 * Second →
      pollingWorld.completedRun.main.getLast? = some Event.stopSpinner) ∧
    (10 * Second = 2 * Second → pollingWorld.completedRun.main.countP Event.isStart = 0) ∧
    (10 * Second = 10 * Second →
      pollingWorld.completedRun.main.countP Event.isStart = 1 ∧
      pollingWorld.completedRun.main.count Event.stopSpinner = 1) :=
  ⟨by decide, by decide,
    C6_spinner_started_and_stopped_once pollingWorld 3 true (10 * Second)
      pollingWorld.completedRun (by decide) (by decide)⟩

/-- C7: on a run of `OpenUI` that passes the fail-fast check the returned value is
decided by the branch that the `select` takes.  With the completion channel,
`OpenUI` returns exactly the value that the goroutine sent (nil when it sent
nil), and such a run exists exactly when the goroutine reaches its send; with
the timer, `OpenUI` returns an error whose message is
`error opening the UI, the container is not running after ` followed by the
formatted timeout. -/
theorem C7_select_decides_result (w : World) (fuel : Nat) (timeout : Int)
    (hff : (checkFailFast w []).1.1 = false) :
    (∀ o, OpenUI w fuel true timeout = some o ↔
      ∃ t, OpenUI.task w fuel (decide ((checkFailFast w []).1.2 = none))
          (checkFailFast w []).2 = some t ∧
        o = { ret := t.sent,
              main := [Event.run portArgs, Event.println banner] ++
                (if timeout > 5 * Second then
                  [Event.startSpinner "Initializing source\x7bd\x7d...".toList] else []) ++
                [Event.select true] ++
                (if timeout > 5 * Second then [Event.stopSpinner] else []),
              spawned := true, task := some t }) ∧
    (∃ o e, OpenUI w fuel false timeout = some o ∧ o.ret = some e ∧ o.task = none ∧
      Event.select false ∈ o.main ∧
      e.Error = "error opening the UI, the container is not running after ".toList ++
        w.formatDuration timeout) := by
  constructor
  · intro o
    rw [OpenUI_passed w fuel true timeout hff, if_pos rfl, checkFailFast_err,
      checkFailFast_out, Option.map_eq_some']
    constructor
    · rintro ⟨t, ht, rfl⟩
      exact ⟨t, ht, rfl⟩
    · rintro ⟨t, ht, rfl⟩
      exact ⟨t, ht, rfl⟩
  · rw [OpenUI_passed w fuel false timeout hff]
    refine ⟨_, timedOut w timeout, rfl, rfl, rfl, ?_, rfl⟩
    simp [mainEvents]

theorem C7_select_decides_result_witness :
    (checkFailFast pollingWorld []).1.1 = false ∧
    OpenUI pollingWorld 3 true (10 * Second) = some pollingWorld.completedRun ∧
    OpenUI pollingWorld 3 false (10 * Second) = some pollingWorld.timerRun ∧
    ((∀ o, OpenUI pollingWorld 3 true (10 * Second) = some o ↔
      ∃ t, OpenUI.task pollingWorld 3 (decide ((checkFailFast pollingWorld []).1.2 = none))
          (checkFailFast pollingWorld []).2 = some t ∧
        o = { ret := t.sent,
              main := [Event.run portArgs, Event.println banner] ++
                (if 10 * Second > 5 * Second then
                  [Event.startSpinner "Initializing source\x7bd\x7d...".toList] else []) ++
                [Event.select true] ++
                (if 10 * Second > 5 * Second then [Event.stopSpinner] else []),
              spawned := true, task := some t }) ∧
    (∃ o e, OpenUI pollingWorld 3 false (10 * Second) = some o ∧ o.ret = some e ∧
      o.task = none ∧ Event.select false ∈ o.main ∧
      e.Error = "error opening the UI, the container is not running after ".toList ++
        pollingWorld.formatDuration (10 * Second))) :=
  ⟨by decide, by decide, by decide,
    C7_select_decides_result pollingWorld 3 (10 * Second) (by decide)⟩

/-- C9: on a run of `OpenUI` that passes the fail-fast check, let call number `k` of
the probe be the first without error (call 0 is the first check).  If `k = 0`
the goroutine starts with the container ready and makes no probe.  If `k > 0`
the polling loop ends and makes exactly `k` probes, the `k - 1` failed ones each
followed by a sleep of one second, collecting the output of all calls; every
finished goroutine made these events first and no further probe.  The errors of
the failed probes are never returned: a world that differs only in the errors
that its failed probes carry gives the same runs of `OpenUI`. -/
theorem C9_poll_until_first_success (w w' : World) (fuel k : Nat)
    (hff : (checkFailFast w []).1.1 = false)
    (hfail : ∀ i, i < k → (w.RunWithIO i portArgs).err ≠ none)
    (hok : (w.RunWithIO k portArgs).err = none) (hfuel : k < fuel)
    (hff' : (checkFailFast w' []).1.1 = false)
    (hout : ∀ n a, (w'.RunWithIO n a).out = (w.RunWithIO n a).out)
    (herr : ∀ n a, (w'.RunWithIO n a).err = none ↔ (w.RunWithIO n a).err = none)
    (hGet : w'.Get = w.Get) (hOpen : w'.OpenURL = w.OpenURL)
    (hfmt : w'.formatDuration = w.formatDuration) :
    (k = 0 → decide ((checkFailFast w []).1.2 = none) = true ∧ pollEvents k = []) ∧
    (0 < k → decide ((checkFailFast w []).1.2 = none) = false ∧
      waitForContainer w fuel 1 (checkFailFast w []).2 =
        some (written w 0 (k + 1), failedPolls (k - 1) ++ [Event.run portArgs]) ∧
      pollEvents k = failedPolls (k - 1) ++ [Event.run portArgs]) ∧
    (pollEvents k).countP Event.isRun = k ∧
    (pollEvents k).countP Event.isSleep = k - 1 ∧
    (∀ t, OpenUI.task w fuel (decide ((checkFailFast w []).1.2 = none))
        (checkFailFast w []).2 = some t →
      ∃ rest, t.trace = pollEvents k ++ rest ∧ ∀ ev, ev ∈ rest → ev.isRun = false) ∧
    (∀ completion timeout,
      OpenUI w' fuel completion timeout = OpenUI w fuel completion timeout) := by
  rw [checkFailFast_err, checkFailFast_out]
  refine ⟨?_, ?_, ?_, ?_, ?_, ?_⟩
  · rintro rfl
    exact ⟨by simpa using hok, rfl⟩
  · intro hk
    obtain ⟨k, rfl⟩ : ∃ k', k = k' + 1 := ⟨k - 1, by omega⟩
    have h0 : (w.RunWithIO 0 portArgs).err ≠ none := hfail 0 hk
    have hw := waitForContainer_first_success w k fuel 1 ([] ++ (w.RunWithIO 0 portArgs).out)
      (fun i hi => by
        have := hfail (i + 1) (by omega)
        rwa [show 1 + i = i + 1 by omega])
      (by rwa [show 1 + k = k + 1 by omega]) (by omega)
    refine ⟨by simpa using h0, ?_, rfl⟩
    rw [hw, Nat.add_sub_cancel]
    simp [written]
  · cases k with
    | zero => rfl
    | succ k =>
      simp [pollEvents, List.countP_append, countP_isRun_failedPolls, List.countP_cons,
        Event.isRun]
  · cases k with
    | zero => rfl
    | succ k =>
      simp [pollEvents, List.countP_append, countP_isSleep_failedPolls, List.countP_cons,
        Event.isSleep]
  · intro t ht
    rw [List.nil_append, task_first_success w fuel k hfail hok hfuel] at ht
    split_ifs at ht with he
    · simp only [Option.some.injEq] at ht
      subst ht
      exact ⟨[], by simp, by simp⟩
    · rw [Option.map_eq_some'] at ht
      obtain ⟨p, hp, rfl⟩ := ht
      exact ⟨p.2, rfl, isRun_openUI w fuel _ p hp⟩
  · intro completion timeout
    have h0 : decide ((w'.RunWithIO 0 portArgs).err = none) =
        decide ((w.RunWithIO 0 portArgs).err = none) := by
      rw [decide_eq_decide]
      exact herr 0 portArgs
    rw [OpenUI_passed w fuel completion timeout hff,
      OpenUI_passed w' fuel completion timeout hff', h0, hout,
      task_congr w w' hout herr hGet hOpen]
    simp only [timedOut, hfmt]

theorem C9_poll_until_first_success_witness :
    (checkFailFast pollingWorld []).1.1 = false ∧
    OpenUI pollingWorld 3 true (2 * Second) =
      some { ret := pollingWorld.taskRun.sent,
             main := [Event.run portArgs, Event.println banner, Event.select true],
             spawned := true, task := some pollingWorld.taskRun } ∧
    ((2 = 0 → decide ((checkFailFast pollingWorld []).1.2 = none) = true ∧
        pollEvents 2 = []) ∧
    (0 < 2 → decide ((checkFailFast pollingWorld []).1.2 = none) = false ∧
      waitForContainer pollingWorld 3 1 (checkFailFast pollingWorld []).2 =
        some (written pollingWorld 0 (2 + 1), failedPolls (2 - 1) ++ [Event.run portArgs]) ∧
      pollEvents 2 = failedPolls (2 - 1) ++ [Event.run portArgs]) ∧
    (pollEvents 2).countP Event.isRun = 2 ∧
    (pollEvents 2).countP Event.isSleep = 2 - 1 ∧
    (∀ t, OpenUI.task pollingWorld 3 (decide ((checkFailFast pollingWorld []).1.2 = none))
        (checkFailFast pollingWorld []).2 = some t →
      ∃ rest, t.trace = pollEvents 2 ++ rest ∧ ∀ ev, ev ∈ rest → ev.isRun = false) ∧
    (∀ completion timeout,
      OpenUI { pollingWorld with RunWithIO := pollingWorld.errors } 3 completion timeout =
        OpenUI pollingWorld 3 completion timeout)) :=
  ⟨by decide, by decide,
    C9_poll_until_first_success pollingWorld
      { pollingWorld with RunWithIO := pollingWorld.errors } 3 2
      (by decide) (by decide) (by decide) (by decide) (by decide)
      (fun n a => by
        show (pollingWorld.errors n a).out = (pollingWorld.RunWithIO n a).out
        unfold pollingWorld.errors pollingWorld
        dsimp only
        split_ifs <;> rfl)
      (fun n a => by
        show (pollingWorld.errors n a).err = none ↔ (pollingWorld.RunWithIO n a).err = none
        unfold pollingWorld.errors pollingWorld
        dsimp only
        split_ifs <;> simp)
      rfl rfl rfl⟩

/-- C10: on a run of `OpenUI` that passes the fail-fast check, when call number `k` of
the probe is the first without error, the goroutine calls `openUI` (or reports
the missing port) on `strings.TrimSpace` of the outputs of the calls 0, ..., `k`
of the probe, concatenated in the order of the calls: the buffer is shared and
never reset.  That address is the trimmed output of the successful call alone
when every earlier call wrote nothing. -/
theorem C10_address_is_trimmed_concatenation (w : World) (fuel k : Nat)
    (hff : (checkFailFast w []).1.1 = false)
    (hfail : ∀ i, i < k → (w.RunWithIO i portArgs).err ≠ none)
    (hok : (w.RunWithIO k portArgs).err = none) (hfuel : k < fuel) :
    OpenUI.task w fuel (decide ((checkFailFast w []).1.2 = none)) (checkFailFast w []).2 =
      (if TrimSpace (written w 0 (k + 1)) = [] then
        some { address := [], sent := some notFound, trace := pollEvents k }
      else
        (openUI w fuel (TrimSpace (written w 0 (k + 1)))).map
          (fun p => { address := TrimSpace (written w 0 (k + 1)), sent := p.1,
                      trace := pollEvents k ++ p.2 })) ∧
    (∀ timeout o, OpenUI w fuel true timeout = some o →
      ∃ t, o.task = some t ∧ t.address = TrimSpace (written w 0 (k + 1))) ∧
    ((∀ i, i < k → (w.RunWithIO i portArgs).out = []) →
      written w 0 (k + 1) = (w.RunWithIO k portArgs).out) := by
  have ht := task_first_success w fuel k hfail hok hfuel
  refine ⟨?_, ?_, ?_⟩
  · rw [checkFailFast_err, checkFailFast_out]
    exact ht
  · intro timeout o ho
    rw [OpenUI_passed w fuel true timeout hff, if_pos rfl, ht, Option.map_eq_some'] at ho
    obtain ⟨t, htt, rfl⟩ := ho
    refine ⟨t, rfl, ?_⟩
    split_ifs at htt with he
    · simp only [Option.some.injEq] at htt
      subst htt
      exact he.symm
    · rw [Option.map_eq_some'] at htt
      obtain ⟨p, _, rfl⟩ := htt
      rfl
  · intro hq
    have hz : ∀ j n, (∀ i, i < j → (w.RunWithIO (n + i) portArgs).out = []) →
        written w n j = [] := by
      intro j
      induction j with
      | zero => intro n _; rfl
      | succ j ih =>
        intro n hn
        rw [written_succ_right, ih n (fun i hi => hn i (by omega)), hn j (by omega)]
        rfl
    rw [written_succ_right, hz k 0 (fun i hi => by simpa using hq i hi)]
    simp

theorem C10_address_is_trimmed_concatenation_witness :
    (checkFailFast pollingWorld []).1.1 = false ∧
    TrimSpace (written pollingWorld 0 (2 + 1)) = "WARN\nWARN\n0.0.0.0:8088".toList ∧
    (OpenUI.task pollingWorld 3 (decide ((checkFailFast pollingWorld []).1.2 = none))
        (checkFailFast pollingWorld []).2 =
      (if TrimSpace (written pollingWorld 0 (2 + 1)) = [] then
        some { address := [], sent := some notFound, trace := pollEvents 2 }
      else
        (openUI pollingWorld 3 (TrimSpace (written pollingWorld 0 (2 + 1)))).map
          (fun p => { address := TrimSpace (written pollingWorld 0 (2 + 1)), sent := p.1,
                      trace := pollEvents 2 ++ p.2 })) ∧
    (∀ timeout o, OpenUI pollingWorld 3 true timeout = some o →
      ∃ t, o.task = some t ∧ t.address = TrimSpace (written pollingWorld 0 (2 + 1))) ∧
    ((∀ i, i < 2 → (pollingWorld.RunWithIO i portArgs).out = []) →
      written pollingWorld 0 (2 + 1) = (pollingWorld.RunWithIO 2 portArgs).out)) :=
  ⟨by decide, by decide,
    C10_address_is_trimmed_concatenation pollingWorld 3 2 (by decide) (by decide)
      (by decide) (by decide)⟩

end Sourced
